import Mathlib

/-!
# Neotron-IO PS/2 protocol engine, verified against its specification

This file gives a shallow embedding of the PS/2 bit-level protocol engine of
the Neotron-IO firmware and proves (or refutes) the specification's testable
properties about it.

Two revisions of the engine are embedded, matching the repository:

* `Ps2Cb` — the callback-based driver (the revision compiled by the unit
  tests): edges are fed in as `clockEdge edge dataLevel` events, a completed
  byte is held in a single slot `valid_word` drained destructively by `poll`.
* `Ps2Pin` — the pin-templated driver in `ps2.h`: the engine reads the pin
  levels itself, keeps ring-buffer queues in both directions, and contains
  the transmit state machine and the buffer-full backpressure logic.

The word codec (`encodeByte` / `validateWord`) is textually identical in both
revisions and is embedded once.
-/

/-- Arduino `bitRead`, as declared for the test build:
`((word & (1 << bit)) != 0) ? 1 : 0`. -/
def bitRead (word bit : Nat) : Nat :=
  if word &&& (1 <<< bit) ≠ 0 then 1 else 0

/-- `Ps2::encodeByte`: build the 11-bit wire word for a data byte: start bit
(0) at bit 0, the byte at bits 1–8 (LSB first), odd parity at bit 9, stop bit
(1) at bit 10.  The parity flag starts `true` and is toggled once per set data
bit. -/
def encodeByte (byte : Nat) : Nat :=
  let parity := (List.range 8).foldl
    (fun p i => if bitRead byte i ≠ 0 then !p else p) true
  ((byte <<< 1) ||| ((if parity then 1 else 0) <<< 9)) ||| (1 <<< 10)

/-- `Ps2::validateWord`: check a received 11-bit word.  Starting from the
received parity bit (bit 9), toggle once per set data bit (bits 1–8); the word
is good when the start bit is clear, the stop bit is set and the accumulated
parity flag is `true`.  Returns the data byte, or `-1` (`Invalid`). -/
def validateWord (ps2_bits : Nat) : Int :=
  let parity_bit : Bool := bitRead ps2_bits 9 != 0
  let start_bit : Bool := bitRead ps2_bits 0 != 0
  let stop_bit : Bool := bitRead ps2_bits 10 != 0
  let parity := (List.range' 1 8).foldl
    (fun p i => if bitRead ps2_bits i != 0 then !p else p) parity_bit
  if !start_bit && parity && stop_bit then
    Int.ofNat ((ps2_bits >>> 1) &&& 0xFF)
  else
    -1

/-- Number of set bits among the eight data bits (bits 1–8) of a word.  This
is the specification's phrasing of the parity condition, used to state the
framing claim independently of the loop in `validateWord`. -/
def dataOnes (w : Nat) : Nat :=
  ((List.range' 1 8).map (fun i => bitRead w i)).sum

/-! ## The callback-based engine (the revision compiled by the unit tests)

State machine fields mirror the members of the `Ps2` class: `m_state`,
`m_current_word`, `m_current_word_bitmask`, `m_valid_word`, `m_timeout_count`
and `m_have_timeout`.  The pin-direction callbacks are no-ops in the test
build and carry no state, so they are not modelled.  `m_current_word` and
`m_current_word_bitmask` are `uint16_t`; the only operation that could
overflow 16 bits is the left shift of the bitmask, embedded as
`(m * 2) % 65536`. -/

inductive CbState
  | Idle
  | ReadingWord
  | Disabled
deriving DecidableEq

inductive Edge
  | rising
  | falling
deriving DecidableEq

inductive Level
  | low
  | high
deriving DecidableEq

structure Ps2Cb where
  state : CbState
  current_word : Nat
  bitmask : Nat
  valid_word : Int
  timeout_count : Nat
  have_timeout : Bool
deriving DecidableEq

namespace Ps2Cb

/-- The constructor: Idle, empty word, bitmask 1, no byte, no timeout. -/
def init : Ps2Cb :=
  { state := CbState.Idle, current_word := 0, bitmask := 1,
    valid_word := -1, timeout_count := 0, have_timeout := false }

/-- `setTimeout`: after this many polls, we give up. -/
def setTimeout (s : Ps2Cb) (timeout_count : Nat) : Ps2Cb :=
  { s with timeout_count := timeout_count, have_timeout := true }

/-- `hasTimedOut`: the timeout has been armed and its count has hit zero. -/
def hasTimedOut (s : Ps2Cb) : Bool :=
  s.have_timeout && (s.timeout_count == 0)

/-- `handleClockEdgeIdle`: on a falling edge, store the data level as bit 0
of the word, set the bitmask to 2 and enter `ReadingWord`. -/
def handleClockEdgeIdle (s : Ps2Cb) (edge : Edge) (data_bit : Level) : Ps2Cb :=
  match edge with
  | Edge.falling =>
      { s with bitmask := 2,
               current_word := if data_bit = Level.high then 1 else 0,
               state := CbState.ReadingWord }
  | Edge.rising => s

/-- `handleClockEdgeReadingWord`: on a falling edge, OR the data bit in at the
cursor, shift the cursor; at `PS2_INCOMING_MASK` (`1 << 11`) validate the word
into `valid_word` and return to Idle, otherwise re-arm the 250-poll timeout. -/
def handleClockEdgeReadingWord (s : Ps2Cb) (edge : Edge) (data_bit : Level) : Ps2Cb :=
  match edge with
  | Edge.rising => s
  | Edge.falling =>
      let w := if data_bit = Level.high then s.current_word ||| s.bitmask else s.current_word
      let m := (s.bitmask * 2) % 65536
      if m = 2048 then
        { s with current_word := w, bitmask := m,
                 valid_word := validateWord w, state := CbState.Idle }
      else
        setTimeout { s with current_word := w, bitmask := m } 250

/-- `clockEdge`: dispatch an edge event on the current state. -/
def clockEdge (s : Ps2Cb) (edge : Edge) (data_bit : Level) : Ps2Cb :=
  match s.state with
  | CbState.Idle => handleClockEdgeIdle s edge data_bit
  | CbState.Disabled => s
  | CbState.ReadingWord => handleClockEdgeReadingWord s edge data_bit

/-- `handlePollReadingWord`: if the armed timeout has expired, give up on the
word in progress and return to Idle. -/
def handlePollReadingWord (s : Ps2Cb) : Ps2Cb :=
  if hasTimedOut s then { s with state := CbState.Idle } else s

/-- The first block of `poll`: decrement the armed timeout counter. -/
def pollDecrement (s : Ps2Cb) : Ps2Cb :=
  if s.have_timeout ∧ 0 < s.timeout_count then
    { s with timeout_count := s.timeout_count - 1 }
  else s

/-- The state dispatch of `poll`: only `ReadingWord` checks for timeouts. -/
def pollStep (s : Ps2Cb) : Ps2Cb :=
  match s.state with
  | CbState.ReadingWord => handlePollReadingWord s
  | CbState.Idle => s
  | CbState.Disabled => s

/-- `poll`: decrement the timeout, handle a `ReadingWord` timeout, then
destructively return `m_valid_word` (resetting the slot to `-1`). -/
def poll (s : Ps2Cb) : Int × Ps2Cb :=
  let s2 := pollStep (pollDecrement s)
  (s2.valid_word, { s2 with valid_word := -1 })

end Ps2Cb

/-- Feed the engine `n` falling clock edges whose data levels are bits
`0, 1, …, n-1` of the word `w` (LSB first) — the experiment driver used by
the repository's unit tests. -/
def feedBits (s : Ps2Cb) (w n : Nat) : Ps2Cb :=
  (List.range n).foldl
    (fun t i => Ps2Cb.clockEdge t Edge.falling
      (if bitRead w i ≠ 0 then Level.high else Level.low)) s

/-- Run `n` consecutive `poll` calls, collecting the returned values and the
final engine state. -/
def pollRun (s : Ps2Cb) (n : Nat) : List Int × Ps2Cb :=
  match n with
  | 0 => ([], s)
  | k + 1 =>
      let r := Ps2Cb.poll s
      let rest := pollRun r.2 k
      (r.1 :: rest.1, rest.2)

/-! ## The pin-templated engine of `ps2.h`

Fields mirror the members of the templated `Ps2` class.  The two pins are
modelled by the inputs of each handler (`clk`, `dat` : the level read by
`fastDigitalRead`, `true` = HIGH) and by two output fields: `clock_out` /
`data_out` are `some level` while the engine drives the pin (`fastOutputLow`,
`fastDigitalWrite`) and `none` while the pin is released as a pulled-up input
(`fastInputPullup`).  `micros()` is passed in as `now`.  The `RingBuf`
external library is modelled as a bounded FIFO list (front at the head):
`push` appends when not full, `pop` removes the head, `peek` reads the head,
`isFull` compares the size with the capacity (32 in both directions). -/

inductive PState
  | Idle
  | ReadingWord
  | WritingWord
  | BufferFull
  | Disabled
deriving DecidableEq

inductive WState
  | HoldingClock
  | WaitClockLow
  | WaitClockHigh
  | WaitDataLow
  | WaitFinalClockLow
  | WaitForRelease
deriving DecidableEq

structure Engine where
  state : PState
  write_state : WState
  internal_timeout : Bool
  last_clk : Bool
  current_word : Nat
  bitmask : Nat
  in_buffer : List Nat
  out_buffer : List Nat
  timeout : Nat
  clock_out : Option Bool
  data_out : Option Bool
deriving DecidableEq

namespace Ps2Pin

/-- `RingBuf::push`: append when there is room, otherwise leave unchanged. -/
def ringPush (buf : List Nat) (cap x : Nat) : List Nat :=
  if buf.length < cap then buf ++ [x] else buf

/-- The constructor: Idle, `HoldingClock`, clock seen high, empty word and
buffers, both pins released as pulled-up inputs. -/
def Engine.init : Engine :=
  { state := PState.Idle, write_state := WState.HoldingClock,
    internal_timeout := false, last_clk := true, current_word := 0,
    bitmask := 1, in_buffer := [], out_buffer := [], timeout := 0,
    clock_out := none, data_out := none }

/-- The comparison inside `hasTimedOut`: `int16_t delta = m_timeout - now;
delta <= 0` — a wrapping 16-bit subtraction reinterpreted as signed. -/
def timedOut (timeout now : Nat) : Bool :=
  let delta := ((timeout % 65536) + 65536 - now % 65536) % 65536
  decide (delta = 0 ∨ 32768 ≤ delta)

/-- `setInternalTimeout`: arm a deadline `num` microseconds from `now`
(wrapping 16-bit addition) in internal-timeout mode. -/
def setInternalTimeout (s : Engine) (now num : Nat) : Engine :=
  { s with timeout := ((now % 65536) + num) % 65536, internal_timeout := true }

/-- `setExternalTimeout`: the same deadline, in external-wait mode. -/
def setExternalTimeout (s : Engine) (now num : Nat) : Engine :=
  { s with timeout := ((now % 65536) + num) % 65536, internal_timeout := false }

/-- `renable`: release both pins, return to Idle and clear the word. -/
def renable (s : Engine) : Engine :=
  { s with clock_out := none, data_out := none, state := PState.Idle,
           current_word := 0, bitmask := 1 }

/-- `pollIdle`: when the outbound queue is non-empty, peek (do not pop) the
front byte, pre-encode it, set the cursor past the start bit, drive the clock
low and hold for 150µs (an internal timeout). -/
def pollIdle (s : Engine) (now : Nat) : Engine :=
  if s.out_buffer = [] then s
  else
    setInternalTimeout
      { s with state := PState.WritingWord, write_state := WState.HoldingClock,
               current_word := encodeByte (s.out_buffer.headD 0), bitmask := 2,
               clock_out := some false }
      now 150

/-- `pollWritingWord`: an expired external-wait deadline aborts the
transmission via `renable` (the expiry also clears `m_timeout`). -/
def pollWritingWord (s : Engine) (now : Nat) : Engine :=
  if s.internal_timeout = false ∧ timedOut s.timeout now = true then
    renable { s with timeout := 0 }
  else s

/-- `irqWritingWord`: the transmit state machine, one step per clock edge. -/
def irqWritingWord (s : Engine) (clk dat : Bool) (now : Nat) : Engine :=
  match s.write_state with
  | WState.HoldingClock =>
      if timedOut s.timeout now then
        { s with timeout := 0, write_state := WState.WaitClockLow,
                 data_out := some false, clock_out := none }
      else s
  | WState.WaitClockLow =>
      if clk = false then
        if s.bitmask = 1024 then
          setExternalTimeout
            { s with data_out := none, write_state := WState.WaitDataLow } now 1500
        else
          setExternalTimeout
            { s with data_out := some (decide (s.current_word &&& s.bitmask ≠ 0)),
                     bitmask := (s.bitmask * 2) % 65536,
                     write_state := WState.WaitClockHigh } now 1500
      else s
  | WState.WaitClockHigh =>
      if clk = true then
        setExternalTimeout { s with write_state := WState.WaitClockLow } now 1500
      else s
  | WState.WaitDataLow =>
      if dat = false then
        setExternalTimeout { s with write_state := WState.WaitFinalClockLow } now 1500
      else s
  | WState.WaitFinalClockLow =>
      if clk = false then
        setExternalTimeout { s with write_state := WState.WaitForRelease } now 1500
      else s
  | WState.WaitForRelease =>
      if clk = true ∧ dat = true then
        renable { s with out_buffer := s.out_buffer.tail }
      else s

/-- `irqIdle`: a falling edge (clock now low) starts a reception. -/
def irqIdle (s : Engine) : Engine :=
  if s.last_clk = false then
    { s with bitmask := 1, state := PState.ReadingWord }
  else s

/-- `irqReadingWord`: on a falling edge, OR the data level in at the cursor
and shift it; at `PS2_INCOMING_MASK` (`1 << 11`) validate the word, push a
good byte into the inbound queue and, if the queue is now full, drive the
clock low and enter `BufferFull`; every falling edge re-arms a 2.5ms
external-wait deadline. -/
def irqReadingWord (s : Engine) (dat : Bool) (now : Nat) : Engine :=
  if s.last_clk = false then
    let w := if dat then s.current_word ||| s.bitmask else s.current_word
    let m := (s.bitmask * 2) % 65536
    let s1 := { s with current_word := w, bitmask := m }
    let s2 :=
      if m = 2048 then
        if 0 ≤ validateWord w then
          let s3 := { s1 with in_buffer := ringPush s1.in_buffer 32 (validateWord w).toNat }
          let s4 :=
            if s3.in_buffer.length = 32 then
              { s3 with clock_out := some false, state := PState.BufferFull,
                        current_word := 0, bitmask := 1 }
            else s3
          { s4 with bitmask := 1 }
        else s1
      else s1
    setExternalTimeout s2 now 2500
  else s

/-- `irq`: record the clock level (`isEdge`) and, when it changed, dispatch
on the engine state. -/
def irq (s : Engine) (clk dat : Bool) (now : Nat) : Engine :=
  let edge := decide (clk ≠ s.last_clk)
  let s0 := { s with last_clk := clk }
  if edge then
    match s0.state with
    | PState.Idle => irqIdle s0
    | PState.BufferFull => s0
    | PState.Disabled => s0
    | PState.WritingWord => irqWritingWord s0 clk dat now
    | PState.ReadingWord => irqReadingWord s0 dat now
  else s0

/-- `poll`: dispatch on the engine state (the `ReadingWord` poll body is
entirely commented out in this revision). -/
def poll (s : Engine) (now : Nat) : Engine :=
  match s.state with
  | PState.Idle => pollIdle s now
  | PState.BufferFull => s
  | PState.Disabled => s
  | PState.WritingWord => pollWritingWord s now
  | PState.ReadingWord => s

/-- `readBuffer`: pop one byte from the inbound queue if present (releasing a
`BufferFull` condition via `renable`), else return `-1`. -/
def readBuffer (s : Engine) : Int × Engine :=
  if s.in_buffer = [] then (-1, s)
  else
    let result := s.in_buffer.headD 0
    let s1 := { s with in_buffer := s.in_buffer.tail }
    let s2 := if s1.state = PState.BufferFull then renable s1 else s1
    (Int.ofNat result, s2)

/-- `writeBuffer`: reject (returning `false`) when the bytes do not fit in
the remaining outbound space, otherwise push them all — and then fall off the
end of the non-void function: the C++ body has no `return true`, so no
defined value is produced on the success path, modelled as `none`. -/
def writeBuffer (s : Engine) (data : List Nat) : Option Bool × Engine :=
  if 32 < data.length + s.out_buffer.length then (some false, s)
  else (none, { s with out_buffer := s.out_buffer ++ data })

end Ps2Pin


/-- Witness fixture: a transmit awaiting the final handshake release, with one
pending outbound byte and an already-expired external-wait deadline. -/
def wfrEngine : Engine :=
  { Ps2Pin.Engine.init with
    state := PState.WritingWord,
    write_state := WState.WaitForRelease, out_buffer := [0xED] }

/-- Witness fixture: a reception one valid bit (the stop bit) away from
filling the inbound queue (31 of 32 entries used, parity bit already set). -/
def rx31Engine : Engine :=
  { Ps2Pin.Engine.init with
    state := PState.ReadingWord, last_clk := false,
    bitmask := 1024, current_word := 0x200, in_buffer := List.replicate 31 0 }

/-- Witness fixture: a `BufferFull` engine holding one queued byte with the
clock held low. -/
def bfEngine : Engine :=
  { Ps2Pin.Engine.init with
    state := PState.BufferFull,
    clock_out := some false, in_buffer := [5] }

/-- Witness fixture: an engine whose outbound queue is at capacity. -/
def fullOutEngine : Engine :=
  { Ps2Pin.Engine.init with out_buffer := List.replicate 32 7 }


/-! ## Theorems -/

set_option maxRecDepth 20000 in
/-- C1: for every byte value `b` in 0–255, `validateWord (encodeByte b) = b`:
the codec round-trips every 8-bit value. -/
theorem codec_roundtrip : ∀ b < 256, validateWord (encodeByte b) = Int.ofNat b := by
  decide

/-- Witness for `codec_roundtrip` at the concrete byte `0xAA`. -/
theorem codec_roundtrip_witness : validateWord (encodeByte 0xAA) = Int.ofNat 0xAA :=
  codec_roundtrip 0xAA (by decide)

/-- C2, counterexample: the claim describes `0x401` as "stop bit 0", but the
stop bit (bit 10) of `0x401` is 1.  `0x401` is rejected because its start bit
(bit 0) is 1 (and its parity is even), not because of its stop bit. -/
theorem word_0x401_stop_bit_cex :
    bitRead 0x401 10 = 1 ∧ bitRead 0x401 0 = 1 ∧ validateWord 0x401 = -1 := by
  decide

/-- `bitRead` only ever produces 0 or 1. -/
theorem bitRead_cases (w i : Nat) : bitRead w i = 0 ∨ bitRead w i = 1 := by
  unfold bitRead
  split <;> simp

/-- The parity-toggle loop of `validateWord` computes the seed xor-ed with the
parity of the number of set bits it visited. -/
theorem foldl_parity (w : Nat) (l : List Nat) (b : Bool) :
    List.foldl (fun p i => if bitRead w i != 0 then !p else p) b l =
      (b != decide ((l.map (fun i => bitRead w i)).sum % 2 = 1)) := by
  induction l generalizing b with
  | nil => simp
  | cons i t ih =>
      simp only [List.foldl_cons, List.map_cons, List.sum_cons, ih]
      rcases bitRead_cases w i with h | h
      · simp [h]
      · rcases Nat.mod_two_eq_zero_or_one ((t.map (fun j => bitRead w j)).sum) with h2 | h2 <;>
          cases b <;> simp [h, Nat.add_mod, h2]

/-- `foldl_parity` specialised to the data bits of a word. -/
theorem validate_parity (w : Nat) (b : Bool) :
    List.foldl (fun p i => if bitRead w i != 0 then !p else p) b (List.range' 1 8) =
      (b != decide (dataOnes w % 2 = 1)) := by
  simpa [dataOnes] using foldl_parity w (List.range' 1 8) b

/-- C2 (amended): for every 11-bit word `w`, `validateWord w` returns the 8
data bits (bits 1–8) exactly when the start bit (bit 0) is 0, the stop bit
(bit 10) is 1, and the number of 1-bits among the 8 data bits plus the parity
bit (bit 9) is odd; otherwise it returns `-1`.  In particular `0x601` (start
bit 1) is rejected, `0x401` (start bit 1, even parity — its stop bit is in
fact 1) is rejected, and `0x600` validates to `0x00`. -/
theorem validateWord_framing :
    (∀ w < 2048, validateWord w =
      (if bitRead w 0 = 0 ∧ bitRead w 10 = 1 ∧ (dataOnes w + bitRead w 9) % 2 = 1
       then Int.ofNat ((w >>> 1) &&& 0xFF) else -1)) ∧
    validateWord 0x601 = -1 ∧ validateWord 0x401 = -1 ∧ validateWord 0x600 = 0 := by
  refine ⟨fun w _ => ?_, by decide, by decide, by decide⟩
  simp only [validateWord]
  rw [validate_parity]
  rcases bitRead_cases w 0 with h0 | h0 <;>
    rcases bitRead_cases w 9 with h9 | h9 <;>
      rcases bitRead_cases w 10 with h10 | h10 <;>
        rcases Nat.mod_two_eq_zero_or_one (dataOnes w) with hd | hd <;>
          simp [h0, h9, h10, hd, Nat.add_mod]

/-- Witness for `validateWord_framing` at the concrete word `0x754`
(the encoding of `0xAA`). -/
theorem validateWord_framing_witness :
    validateWord 0x754 =
      (if bitRead 0x754 0 = 0 ∧ bitRead 0x754 10 = 1 ∧
          (dataOnes 0x754 + bitRead 0x754 9) % 2 = 1
       then Int.ofNat ((0x754 >>> 1) &&& 0xFF) else -1) :=
  validateWord_framing.1 0x754 (by decide)

set_option maxRecDepth 40000 in
/-- C3: from Idle, feeding the 11 falling edges carrying the bits of the word
`(0x03 <<< 9) ||| (0xAA <<< 1) = 0x754` (LSB first) makes exactly one byte
available: the first `poll` returns `0xAA` and the following ten return `-1`. -/
theorem receive_aa_end_to_end :
    ((Ps2Cb.poll (feedBits Ps2Cb.init 0x754 11)).1 = 0xAA) ∧
    ((pollRun (Ps2Cb.poll (feedBits Ps2Cb.init 0x754 11)).2 10).1.all
      (fun v => v == -1) = true) := by
  decide

set_option maxRecDepth 400000 in
/-- C4: feeding only 5 of the 11 falling edges for the word encoding `0xEE`
and then 1000 polls (past the 250-poll bit timeout) yields no byte and returns
the engine to Idle; a complete word for `0xD1` fed afterwards yields exactly
the byte `0xD1`. -/
theorem timeout_abandon_then_recover :
    ((pollRun (feedBits Ps2Cb.init 0x7DC 5) 1000).1.all (fun v => v == -1) = true) ∧
    ((pollRun (feedBits Ps2Cb.init 0x7DC 5) 1000).2.state = CbState.Idle) ∧
    ((Ps2Cb.poll (feedBits (pollRun (feedBits Ps2Cb.init 0x7DC 5) 1000).2 0x7A2 11)).1
      = 0xD1) ∧
    ((Ps2Cb.poll
      (Ps2Cb.poll (feedBits (pollRun (feedBits Ps2Cb.init 0x7DC 5) 1000).2 0x7A2 11)).2).1
      = -1) := by
  decide

set_option maxRecDepth 40000 in
/-- C5, counterexample: after a completed word (here the word `0x600`,
encoding `0x00`) the engine is back in Idle but `current_word` still holds the
received word and the bit cursor is left at the end position, not at its
initial position — the claimed Idle invariant fails on the code. -/
theorem idle_stale_word_cex :
    (feedBits Ps2Cb.init 0x600 11).state = CbState.Idle ∧
    (feedBits Ps2Cb.init 0x600 11).current_word ≠ 0 ∧
    (feedBits Ps2Cb.init 0x600 11).bitmask ≠ 1 := by
  decide

/-- C5 (amended): `state = Idle` does not imply a cleared accumulator — the
word and cursor keep their stale values when a completed or abandoned word
returns the engine to Idle.  Instead, both are freshly initialised on the
Idle → ReadingWord transition, so the stale values never affect the next
reception: from any Idle state, the result of a falling clock edge is
independent of `current_word` and `bitmask`, and starts the new word with
the data level as bit 0 and the cursor at bit position 1. -/
theorem idle_stale_state_harmless (s : Ps2Cb) (w m : Nat) (d : Level)
    (h : s.state = CbState.Idle) :
    (Ps2Cb.clockEdge { s with current_word := w, bitmask := m } Edge.falling d =
      Ps2Cb.clockEdge s Edge.falling d) ∧
    (Ps2Cb.clockEdge s Edge.falling d).current_word = (if d = Level.high then 1 else 0) ∧
    (Ps2Cb.clockEdge s Edge.falling d).bitmask = 2 ∧
    (Ps2Cb.clockEdge s Edge.falling d).state = CbState.ReadingWord := by
  simp [Ps2Cb.clockEdge, h, Ps2Cb.handleClockEdgeIdle]

/-- Witness for `idle_stale_state_harmless`: a stale accumulator `0x600` with
the cursor at the end position is discarded by the next start bit. -/
theorem idle_stale_state_harmless_witness :
    (Ps2Cb.clockEdge { Ps2Cb.init with current_word := 0x600, bitmask := 2048 }
        Edge.falling Level.high =
      Ps2Cb.clockEdge Ps2Cb.init Edge.falling Level.high) ∧
    (Ps2Cb.clockEdge Ps2Cb.init Edge.falling Level.high).current_word
      = (if Level.high = Level.high then 1 else 0) ∧
    (Ps2Cb.clockEdge Ps2Cb.init Edge.falling Level.high).bitmask = 2 ∧
    (Ps2Cb.clockEdge Ps2Cb.init Edge.falling Level.high).state = CbState.ReadingWord :=
  idle_stale_state_harmless Ps2Cb.init 0x600 2048 Level.high rfl

/-- C6, counterexample: the first falling edge from Idle transitions to
ReadingWord but does not arm the inter-bit timeout: `have_timeout` is still
`false` afterwards (it only becomes `true` when a later data-bit edge calls
`setTimeout`). -/
theorem idle_edge_no_timeout_cex :
    (Ps2Cb.clockEdge Ps2Cb.init Edge.falling Level.high).state = CbState.ReadingWord ∧
    (Ps2Cb.clockEdge Ps2Cb.init Edge.falling Level.high).have_timeout = false := by
  decide

/-- C6 (amended): when the engine is Idle and observes a falling clock edge,
it captures the concurrent data level as bit 0 of the word, sets the cursor to
bit position 1 and transitions to ReadingWord — but it does not arm the
inter-bit timeout: the timeout state is left untouched and is only armed by
subsequent data-bit edges in ReadingWord. -/
theorem idle_edge_starts_word (s : Ps2Cb) (d : Level) (h : s.state = CbState.Idle) :
    (Ps2Cb.clockEdge s Edge.falling d).current_word = (if d = Level.high then 1 else 0) ∧
    (Ps2Cb.clockEdge s Edge.falling d).bitmask = 2 ∧
    (Ps2Cb.clockEdge s Edge.falling d).state = CbState.ReadingWord ∧
    (Ps2Cb.clockEdge s Edge.falling d).have_timeout = s.have_timeout ∧
    (Ps2Cb.clockEdge s Edge.falling d).timeout_count = s.timeout_count := by
  simp [Ps2Cb.clockEdge, h, Ps2Cb.handleClockEdgeIdle]

/-- Witness for `idle_edge_starts_word` at the initial state with a low data
level. -/
theorem idle_edge_starts_word_witness :
    (Ps2Cb.clockEdge Ps2Cb.init Edge.falling Level.low).current_word
      = (if Level.low = Level.high then 1 else 0) ∧
    (Ps2Cb.clockEdge Ps2Cb.init Edge.falling Level.low).bitmask = 2 ∧
    (Ps2Cb.clockEdge Ps2Cb.init Edge.falling Level.low).state = CbState.ReadingWord ∧
    (Ps2Cb.clockEdge Ps2Cb.init Edge.falling Level.low).have_timeout
      = Ps2Cb.init.have_timeout ∧
    (Ps2Cb.clockEdge Ps2Cb.init Edge.falling Level.low).timeout_count
      = Ps2Cb.init.timeout_count :=
  idle_edge_starts_word Ps2Cb.init Level.low rfl

/-- `handlePollReadingWord` never touches the received-byte slot. -/
theorem handlePollReadingWord_valid (s : Ps2Cb) :
    (Ps2Cb.handlePollReadingWord s).valid_word = s.valid_word := by
  unfold Ps2Cb.handlePollReadingWord
  split <;> rfl

/-- The timeout decrement never touches the received-byte slot. -/
theorem pollDecrement_valid (s : Ps2Cb) :
    (Ps2Cb.pollDecrement s).valid_word = s.valid_word := by
  unfold Ps2Cb.pollDecrement
  split <;> rfl

/-- The poll state dispatch never touches the received-byte slot. -/
theorem pollStep_valid (s : Ps2Cb) :
    (Ps2Cb.pollStep s).valid_word = s.valid_word := by
  unfold Ps2Cb.pollStep
  split <;> simp [handlePollReadingWord_valid, pollDecrement_valid]

/-- `poll` returns exactly the current contents of the byte slot. -/
theorem poll_fst (s : Ps2Cb) : (Ps2Cb.poll s).1 = s.valid_word := by
  unfold Ps2Cb.poll
  simp [pollStep_valid, pollDecrement_valid]

set_option maxRecDepth 40000 in
/-- C10: the completed-byte slot is a single entry drained destructively:
after any `poll`, an immediately following `poll` (with no intervening
completed word) returns `-1`; and when a second word (here for `0xD1`)
completes before `poll` is called, the earlier byte (`0xAA`) is overwritten
and only the most recent byte is returned. -/
theorem poll_single_slot_destructive :
    (∀ s : Ps2Cb, (Ps2Cb.poll (Ps2Cb.poll s).2).1 = -1) ∧
    ((Ps2Cb.poll (feedBits (feedBits Ps2Cb.init 0x754 11) 0x7A2 11)).1 = 0xD1) ∧
    ((Ps2Cb.poll
      (Ps2Cb.poll (feedBits (feedBits Ps2Cb.init 0x754 11) 0x7A2 11)).2).1 = -1) := by
  refine ⟨fun s => ?_, by decide, by decide⟩
  rw [poll_fst]
  rfl

/-- C7: during a transmit, `irqWritingWord` changes the outbound queue only
in the `WaitForRelease` state with both clock and data observed high — the
completed ACK handshake — where it pops the front byte and returns to Idle;
and an expired external-wait deadline makes `pollWritingWord` abort back to
Idle with the outbound queue untouched (the in-flight byte is not popped). -/
theorem transmit_pop_only_after_ack (s : Engine) (clk dat : Bool) (now : Nat) :
    ((Ps2Pin.irqWritingWord s clk dat now).out_buffer =
      (if s.write_state = WState.WaitForRelease ∧ clk = true ∧ dat = true
       then s.out_buffer.tail else s.out_buffer)) ∧
    (s.write_state = WState.WaitForRelease → clk = true → dat = true →
      (Ps2Pin.irqWritingWord s clk dat now).state = PState.Idle) ∧
    ((Ps2Pin.pollWritingWord s now).out_buffer = s.out_buffer) ∧
    (s.internal_timeout = false → Ps2Pin.timedOut s.timeout now = true →
      (Ps2Pin.pollWritingWord s now).state = PState.Idle) := by
  refine ⟨?_, ?_, ?_, ?_⟩
  · obtain ⟨st, ws, it, lc, cw, bm, ib, ob, t, co, dao⟩ := s
    cases ws <;> cases clk <;> cases dat <;>
      simp [Ps2Pin.irqWritingWord, Ps2Pin.setExternalTimeout, Ps2Pin.renable] <;>
      split <;> simp_all
  · intro h1 h2 h3
    subst h2; subst h3
    unfold Ps2Pin.irqWritingWord
    rw [h1]
    simp [Ps2Pin.renable]
  · unfold Ps2Pin.pollWritingWord
    split <;> simp [Ps2Pin.renable]
  · intro h1 h2
    unfold Ps2Pin.pollWritingWord
    rw [if_pos ⟨h1, h2⟩]
    simp [Ps2Pin.renable]

/-- Witness for `transmit_pop_only_after_ack`: completing the handshake on
`wfrEngine` pops its single queued byte and the engine goes Idle, while a
timed-out poll aborts without popping. -/
theorem transmit_pop_only_after_ack_witness :
    ((Ps2Pin.irqWritingWord wfrEngine true true 0).out_buffer =
      (if wfrEngine.write_state = WState.WaitForRelease ∧ true = true ∧ true = true
       then wfrEngine.out_buffer.tail else wfrEngine.out_buffer)) ∧
    ((Ps2Pin.irqWritingWord wfrEngine true true 0).state = PState.Idle) ∧
    ((Ps2Pin.pollWritingWord wfrEngine 0).out_buffer = wfrEngine.out_buffer) ∧
    ((Ps2Pin.pollWritingWord wfrEngine 0).state = PState.Idle) := by
  have h := transmit_pop_only_after_ack wfrEngine true true 0
  exact ⟨h.1, h.2.1 rfl rfl rfl, h.2.2.1, h.2.2.2 rfl (by decide)⟩

/-- C8: `writeBuffer` returns `false` and buffers nothing when the bytes do
not fit, but on the success path the C++ function ends without a `return`
statement: the bytes are appended yet no value is returned (modelled as
`none`), contradicting the claim (and the function's own doc comment) that it
returns `true`. -/
theorem writeBuffer_missing_return :
    (Ps2Pin.writeBuffer Ps2Pin.Engine.init [0x42] =
      (none, { Ps2Pin.Engine.init with out_buffer := [0x42] })) ∧
    (Ps2Pin.writeBuffer fullOutEngine [1] = (some false, fullOutEngine)) := by
  constructor <;> decide

/-- C9: completing a valid word with `irqReadingWord` pushes the byte and
enters `BufferFull` with the clock driven low exactly when the push fills the
inbound queue; `readBuffer` on a non-empty queue in `BufferFull` pops one
entry, releases the clock and returns to Idle; and while in `BufferFull`,
`irq` and `poll` change neither the state nor the clock, and `readBuffer` on
an empty queue returns `-1` unchanged — so only a draining read leaves
`BufferFull`. -/
theorem buffer_backpressure :
    (∀ (s : Engine) (dat : Bool) (now : Nat),
      s.state = PState.ReadingWord → s.last_clk = false → s.bitmask = 1024 →
      s.in_buffer.length < 32 →
      0 ≤ validateWord (if dat then s.current_word ||| s.bitmask else s.current_word) →
      ((((Ps2Pin.irqReadingWord s dat now).state = PState.BufferFull ∧
         (Ps2Pin.irqReadingWord s dat now).clock_out = some false)
        ↔ s.in_buffer.length + 1 = 32) ∧
       (Ps2Pin.irqReadingWord s dat now).in_buffer =
         s.in_buffer ++
           [(validateWord (if dat then s.current_word ||| s.bitmask
                           else s.current_word)).toNat])) ∧
    (∀ s : Engine, s.state = PState.BufferFull → s.in_buffer ≠ [] →
      (Ps2Pin.readBuffer s).2.state = PState.Idle ∧
      (Ps2Pin.readBuffer s).2.clock_out = none ∧
      (Ps2Pin.readBuffer s).2.in_buffer = s.in_buffer.tail ∧
      (Ps2Pin.readBuffer s).1 = Int.ofNat (s.in_buffer.headD 0)) ∧
    (∀ (s : Engine) (clk dat : Bool) (now : Nat), s.state = PState.BufferFull →
      (Ps2Pin.irq s clk dat now).state = PState.BufferFull ∧
      (Ps2Pin.irq s clk dat now).clock_out = s.clock_out ∧
      (Ps2Pin.poll s now).state = PState.BufferFull ∧
      (Ps2Pin.poll s now).clock_out = s.clock_out ∧
      (s.in_buffer = [] → Ps2Pin.readBuffer s = (-1, s))) := by
  refine ⟨?_, ?_, ?_⟩
  · intro s dat now hst hclk hm hlen hv
    have hm2 : (s.bitmask * 2) % 65536 = 2048 := by rw [hm]
    unfold Ps2Pin.irqReadingWord
    by_cases hfull : s.in_buffer.length + 1 = 32 <;>
      simp [hclk, hm2, hlen, hv, hst, hfull, Ps2Pin.ringPush, Ps2Pin.setExternalTimeout]
  · intro s hst hne
    unfold Ps2Pin.readBuffer
    rw [if_neg hne]
    simp [hst, Ps2Pin.renable]
  · intro s clk dat now hst
    refine ⟨?_, ?_, ?_, ?_, ?_⟩
    · simp [Ps2Pin.irq, hst]
    · simp [Ps2Pin.irq, hst]
    · unfold Ps2Pin.poll
      simp [hst]
    · unfold Ps2Pin.poll
      simp [hst]
    · intro he
      unfold Ps2Pin.readBuffer
      rw [if_pos he]

/-- Witness for `buffer_backpressure` on the concrete fixtures: the 32nd byte
sends `rx31Engine` into `BufferFull` with the clock low, and one `readBuffer`
on `bfEngine` drains the byte `5` and returns to Idle, while `irq` and `poll`
leave `bfEngine` in `BufferFull`. -/
theorem buffer_backpressure_witness :
    ((Ps2Pin.irqReadingWord rx31Engine true 0).state = PState.BufferFull ∧
     (Ps2Pin.irqReadingWord rx31Engine true 0).clock_out = some false) ∧
    ((Ps2Pin.readBuffer bfEngine).2.state = PState.Idle) ∧
    ((Ps2Pin.readBuffer bfEngine).1 = Int.ofNat 5) ∧
    ((Ps2Pin.irq bfEngine true true 0).state = PState.BufferFull) ∧
    ((Ps2Pin.poll bfEngine 0).state = PState.BufferFull) := by
  have h1 := (buffer_backpressure.1 rx31Engine true 0 rfl rfl rfl (by decide)
    (by decide)).1.mpr (by decide)
  have h2 := buffer_backpressure.2.1 bfEngine rfl (by decide)
  have h3 := buffer_backpressure.2.2 bfEngine true true 0 rfl
  exact ⟨h1, h2.1, h2.2.2.2, h3.1, h3.2.2.1⟩
